import Mathlib

/-!
Verification development for the `curiosity_baselines` repository.

We give a shallow embedding of the three source files

* `rlpyt/models/curiosity/rnd.py` (the RND curiosity model),
* `rlpyt/envs/mazeworld/mazeworld/envs/pycolab_env.py` (the gym adapter),
* `rlpyt/envs/pycolab/pycolab/examples/deepmind_5room_moveable.py`
  (the five-room maze with a moveable and a white-noise sprite),

and prove, or refute, the stated properties of these functions.  Machine
tensors are embedded as functions out of `Fin`-indexed types or as lists;
real-valued quantities use `ℝ` where a square root occurs and `ℚ` or `ℤ`
where the computation is exact; stateful methods become explicit
state-passing functions; randomness becomes an explicit oracle argument.
-/

namespace CuriosityBaselines

/-! ### Observation-statistics update in `RND.forward` (rnd.py lines 154-163)

`forward` receives `done` of shape `(T, B)` with entries `0.0 / 1.0`, computes
`num_not_done = np.sum(np.abs(done - 1), axis=0)` and, after swapping the
axes of the observation tensor to `(B, T, ...)`, concatenates for every
batch column `b` the slice `obs_cpu[b][:num_not_done[b]]` — the *first*
`num_not_done[b]` timesteps of that column.  We model one column as a list
of observations paired with its `done` column. -/

/-- `np.sum(np.abs(done - 1), axis=0)` for one batch column: the code's count
of not-done steps, computed as `Σ_t |done[t] - 1|`. -/
def numNotDone (doneCol : List ℤ) : ℕ :=
  (doneCol.map (fun d => (d - 1).natAbs)).sum

/-- `obs_cpu[b][:int(num_not_done[b].item())]` — the slice of a single batch
column that `RND.forward` feeds to `obs_rms.update`. -/
def validObsCol {α : Type} (obsCol : List α) (doneCol : List ℤ) : List α :=
  obsCol.take (numNotDone doneCol)

/-- The full `valid_obs` array: the concatenation, over batch columns in
order, of the per-column slices (the loop `for i in range(1, B)` with
`np.concatenate`). -/
def validObs {α : Type} (obsCols : List (List α)) (doneCols : List (List ℤ)) : List α :=
  (List.zipWith validObsCol obsCols doneCols).flatten

/-- The observations of one column at timesteps that are *not* marked done —
what the claim says is contributed to the statistics update. -/
def notDoneObs {α : Type} (obsCol : List α) (doneCol : List ℤ) : List α :=
  ((obsCol.zip doneCol).filter (fun p => p.2 = 0)).map Prod.fst

/-! ### The gym adapter `PyColabEnv` (pycolab_env.py)

The adapter wraps a `pycolab.Engine`.  The engine is external library code;
we embed the part of it the adapter reads (`the_plot.frame`, `game_over`,
sprite positions) and treat each `its_showtime` / `play` response — the
observation, the reward and the resulting engine state — as an oracle input
of the corresponding adapter operation.  An observation is embedded by the
data the adapter extracts from it: which characters have a `1.` somewhere in
their (cropped) layer. -/

/-- What the adapter reads from a pycolab observation: per character, whether
the character's layer contains a `1.` (`1. in mask`). -/
structure LayerObs where
  visible : Char → Bool

/-- What the adapter reads from the `pycolab.Engine`. -/
structure GameState where
  frame : ℕ
  gameOver : Bool
  things : Char → ℤ × ℤ

/-- `self.obs_type`, either `'mask'` or `'rgb'`. -/
inductive ObsType
  | mask
  | rgb
deriving DecidableEq

/-- `extrinsic_reward_spec[1]`: either a goal coordinate or a goal character.
`_extrinsic_coord_based = (type(spec[1]) == tuple)` holds exactly on the
`coord` constructor. -/
inductive RewardGoal
  | coord (pos : ℤ × ℤ)
  | char (c : Char)
deriving DecidableEq

/-- The constructor-time configuration of `PyColabEnv` that
`_update_for_game_step`, `reset` and `step` consult. -/
structure EnvConfig where
  maxIterations : ℕ
  defaultReward : ℚ
  extrinsicReward : ℚ
  rewardSprite : Char
  rewardGoal : RewardGoal
  obsType : ObsType
  stateLayerChars : List Char
  objects : List Char
  logHeatmaps : Bool

/-- The mutable attributes of `PyColabEnv` that the claims are about. -/
structure EnvState where
  currentGame : Option GameState
  state : Option LayerObs
  lastReward : Option ℚ
  gameOver : Bool
  visitFreq : Char → ℕ
  numObjEps : Char → ℕ
  episodes : ℕ
  heatmap : ℤ × ℤ → ℕ

/-- `PyColabEnv.__init__` (the fields the claims mention): asserts
`max_iterations > 0`, zeroes the visitation metrics and episode counter, sets
`current_game = None`, `_game_over = False`, `heatmap = np.ones(...)`. -/
def initEnv (cfg : EnvConfig) : Option EnvState :=
  if 0 < cfg.maxIterations then
    some { currentGame := none
           state := none
           lastReward := none
           gameOver := false
           visitFreq := fun _ => 0
           numObjEps := fun _ => 0
           episodes := 0
           heatmap := fun _ => 1 }
  else none

/-- The per-character reward test inside the layer loop of
`_update_for_game_step`: the `'mask'` branch checks
`not coord_based and char == spec[1]`, the `'rgb'` branch checks
`extrinsic_reward > 0.0 and not coord_based and char == spec[1]`. -/
def charRewardHit (cfg : EnvConfig) (c : Char) : Prop :=
  match cfg.obsType with
  | ObsType.mask => cfg.rewardGoal = RewardGoal.char c
  | ObsType.rgb => 0 < cfg.extrinsicReward ∧ cfg.rewardGoal = RewardGoal.char c

instance (cfg : EnvConfig) (c : Char) : Decidable (charRewardHit cfg c) := by
  unfold charRewardHit
  cases cfg.obsType <;> infer_instance

/-- One iteration of `for char in self.state_layer_chars`: threads the
(possibly overridden) reward and the visitation-frequency table. -/
def layerStep (cfg : EnvConfig) (obs : LayerObs) (acc : Option ℚ × (Char → ℕ))
    (c : Char) : Option ℚ × (Char → ℕ) :=
  if c ≠ ' ' then
    if c ∈ cfg.objects ∧ obs.visible c then
      ((if charRewardHit cfg c then some cfg.extrinsicReward else acc.1),
       fun x => if x = c then acc.2 x + 1 else acc.2 x)
    else acc
  else acc

/-- `PyColabEnv._update_for_game_step(observations, reward)`: the
coordinate-based extrinsic-reward override, the layer loop (visitation
frequencies and the character-based override), the heatmap update, the
`_last_reward` defaulting, and the `_game_over` computation. -/
def updateForGameStep (cfg : EnvConfig) (e : EnvState) (g : GameState)
    (obs : LayerObs) (reward : Option ℚ) : EnvState :=
  let reward' :=
    if 0 < cfg.extrinsicReward ∧ cfg.rewardGoal = RewardGoal.coord (g.things cfg.rewardSprite)
    then some cfg.extrinsicReward else reward
  let rv := cfg.stateLayerChars.foldl (layerStep cfg obs) (reward', e.visitFreq)
  { e with
    state := some obs
    visitFreq := rv.2
    heatmap :=
      if cfg.logHeatmaps then
        fun p => if p = g.things 'P' then e.heatmap p + 1 else e.heatmap p
      else e.heatmap
    lastReward := some (rv.1.getD cfg.defaultReward)
    gameOver := g.gameOver || decide (cfg.maxIterations ≤ g.frame) }

/-- `PyColabEnv.reset()`: installs the new game (the engine state,
observation and reward returned by `make_game` / `its_showtime` are oracle
arguments), banks `num_obj_eps` for the episode that just ended, zeroes the
visitation frequencies, bumps the episode counter, zeroes the heatmap, and
runs `_update_for_game_step` on the initial observation. -/
def resetEnv (cfg : EnvConfig) (e : EnvState) (g : GameState) (obs : LayerObs)
    (reward : Option ℚ) : EnvState :=
  let e1 := { e with
    currentGame := some g
    lastReward := none
    numObjEps := fun c =>
      if c ∈ cfg.objects ∧ 0 < e.visitFreq c then e.numObjEps c + 1 else e.numObjEps c
    visitFreq := fun _ => 0
    episodes := e.episodes + 1
    heatmap := fun _ => 0 }
  updateForGameStep cfg e1 g obs reward

/-- The quadruple returned by `PyColabEnv.step`; `infoEmpty` records whether
the returned info dict is the literal empty dict `{}` (as opposed to the
dict populated with the custom metrics). -/
structure StepResult where
  state : Option LayerObs
  reward : Option ℚ
  done : Bool
  infoEmpty : Bool

/-- `PyColabEnv.step(action)`: when `current_game is None` it returns
immediately without touching the game; otherwise it plays the game (oracle
response `g, obs, reward`), runs `_update_for_game_step`, and clears
`current_game` when the episode is over. -/
def stepEnv (cfg : EnvConfig) (e : EnvState) (g : GameState) (obs : LayerObs)
    (reward : Option ℚ) : EnvState × StepResult :=
  match e.currentGame with
  | none =>
      ({ e with state := none },
       { state := none, reward := e.lastReward, done := e.gameOver, infoEmpty := true })
  | some _ =>
      let e1 := updateForGameStep cfg { e with currentGame := some g } g obs reward
      let done := e1.gameOver
      let e2 := if done then { e1 with currentGame := none } else e1
      (e2, { state := e1.state, reward := e1.lastReward, done := done, infoEmpty := false })

/-- An interaction event with its oracle response from the game engine. -/
inductive EnvEvent
  | start (g : GameState) (obs : LayerObs) (reward : Option ℚ)
  | play (g : GameState) (obs : LayerObs) (reward : Option ℚ)

/-- Run a sequence of `reset` / `step` calls against the adapter. -/
def runEnv (cfg : EnvConfig) : EnvState → List EnvEvent → EnvState
  | e, [] => e
  | e, EnvEvent.start g obs r :: evs => runEnv cfg (resetEnv cfg e g obs r) evs
  | e, EnvEvent.play g obs r :: evs => runEnv cfg (stepEnv cfg e g obs r).1 evs

/-! Claim C7 describes the visitation metrics in its own words; the following
machine implements exactly that description, to be compared with the
adapter.  `episodeVisits c` counts the updates of the current episode in
which `c` was visible, `visitedEpisodes c` counts the finished episodes that
visited `c` at least once, `gameActive` records whether a game is running. -/

/-- The metric state described by claim C7. -/
structure ClaimMetrics where
  episodeVisits : Char → ℕ
  visitedEpisodes : Char → ℕ
  gameActive : Bool

/-- Claim wording: an update in which `c`'s layer is visible bumps the count. -/
def claimUpdate (obs : LayerObs) (m : ClaimMetrics) : ClaimMetrics :=
  { m with episodeVisits := fun c =>
      if obs.visible c then m.episodeVisits c + 1 else m.episodeVisits c }

/-- Claim wording for a reset: bank one episode for every character visited
at least once, zero the per-episode counts, then count the initial
observation of the new episode. -/
def claimReset (obs : LayerObs) (m : ClaimMetrics) : ClaimMetrics :=
  claimUpdate obs
    { episodeVisits := fun _ => 0
      visitedEpisodes := fun c =>
        if 0 < m.episodeVisits c then m.visitedEpisodes c + 1 else m.visitedEpisodes c
      gameActive := true }

/-- Claim wording for a step: only steps with a running game count as
updates; the game stops being active when the step reports it over. -/
def claimStep (cfg : EnvConfig) (g : GameState) (obs : LayerObs)
    (m : ClaimMetrics) : ClaimMetrics :=
  if m.gameActive then
    { claimUpdate obs m with
      gameActive := !(g.gameOver || decide (cfg.maxIterations ≤ g.frame)) }
  else m

/-- Run the claim-side metric machine over the same event sequence. -/
def runClaim (cfg : EnvConfig) : ClaimMetrics → List EnvEvent → ClaimMetrics
  | m, [] => m
  | m, EnvEvent.start _ obs _ :: evs => runClaim cfg (claimReset obs m) evs
  | m, EnvEvent.play g obs _ :: evs => runClaim cfg (claimStep cfg g obs m) evs

/-! ### `PyColabEnv._paint_board` (pycolab_env.py lines 314-357)

The board is painted by folding over `self._render_order`; each step writes
`board_layer_mask * color + perturbation` at the cells not yet covered
(`np.where(np.logical_not(board_mask), ..., board)`) and then ORs the
layer into the coverage mask.  The perturbation is the all-zero array except
for the `'@'` key, where it is a random integer array — the randomness is an
explicit oracle argument here. -/

/-- An RGB triple. -/
def Color : Type := ℤ × ℤ × ℤ

instance : DecidableEq Color := by
  unfold Color
  infer_instance

/-- Add the same scalar perturbation to all three channels (the random array
is broadcast over the channel axis). -/
def addPert (c : Color) (p : ℤ) : Color := (c.1 + p, c.2.1 + p, c.2.2 + p)

/-- Accumulator of the paint loop: the board and the coverage mask. -/
structure PaintAcc where
  board : ℤ × ℤ → Color
  covered : ℤ × ℤ → Bool

/-- One iteration of `for key in self._render_order`. -/
def paintStep (colors : Char → Color) (layers : Char → ℤ × ℤ → Bool)
    (perturb : ℤ × ℤ → ℤ) (acc : PaintAcc) (key : Char) : PaintAcc :=
  { board := fun pos =>
      if acc.covered pos then acc.board pos
      else addPert (if layers key pos then colors key else ((0, 0, 0) : Color))
        (if key = '@' then perturb pos else 0)
    covered := fun pos => acc.covered pos || layers key pos }

/-- `PyColabEnv._paint_board`: fold the render order over a black, uncovered
board and return the painted board. -/
def paintBoard (renderOrder : List Char) (colors : Char → Color)
    (layers : Char → ℤ × ℤ → Bool) (perturb : ℤ × ℤ → ℤ) : ℤ × ℤ → Color :=
  (renderOrder.foldl (paintStep colors layers perturb)
    { board := fun _ => ((0, 0, 0) : Color), covered := fun _ => false }).board

/-- The value the paint loop leaves at a cell covered by no layer: every
iteration overwrites it, so it ends as the *last* layer's contribution —
that layer's perturbation (zero unless the layer is `'@'`). -/
def uncoveredValue (renderOrder : List Char) (perturb : ℤ × ℤ → ℤ)
    (pos : ℤ × ℤ) : Color :=
  match renderOrder.getLast? with
  | none => ((0, 0, 0) : Color)
  | some k => addPert ((0, 0, 0) : Color) (if k = '@' then perturb pos else 0)

/-! ### The five-room maze sprites (deepmind_5room_moveable.py)

Positions are `ℤ × ℤ` pairs `(row, col)`.  The sprites are instances of the
pycolab prefab `MazeWalker`, whose motion methods are library code not
under `src/`; they are modelled below from the spec's description of the
game as a maze with impassable walls and sprites. -/

/-- The coordinates of room 4 (`ROOMS[4]`, deepmind_5room_moveable.py line 99). -/
def ROOMS4 : List (ℤ × ℤ) :=
  [(14, 6), (14, 7), (14, 11), (14, 12), (15, 5), (15, 6), (15, 7), (15, 8),
   (15, 9), (15, 10), (15, 11), (15, 12), (15, 13), (16, 4), (16, 5), (16, 6),
   (16, 7), (16, 8), (16, 9), (16, 10), (16, 11), (16, 12), (16, 13), (16, 14),
   (17, 4), (17, 5), (17, 6), (17, 7), (17, 8), (17, 9), (17, 10), (17, 11),
   (17, 12), (17, 13), (17, 14)]

/-- The sprite state of maze #0 read by `MoveableObject.update` and
`WhiteNoiseObject.update`: the player's current position, the player's
stored `last_position` and `last_action`, and the positions of the sprites
`'e'` (moveable) and `'b'` (white noise). -/
structure MazeState where
  playerPos : ℤ × ℤ
  playerLastPos : ℤ × ℤ
  playerLastAction : ℕ
  objPos : ℤ × ℤ
  noisePos : ℤ × ℤ

/-- Row/column displacement of one cell in each compass direction. -/
def dirNorth : ℤ × ℤ := (-1, 0)

def dirSouth : ℤ × ℤ := (1, 0)

def dirWest : ℤ × ℤ := (0, -1)

def dirEast : ℤ × ℤ := (0, 1)

/-- Componentwise sum of a position and a displacement. -/
def shift (p d : ℤ × ℤ) : ℤ × ℤ := (p.1 + d.1, p.2 + d.2)

/-- Whether a cell is impassable for the moveable object `'e'`
(`impassable='#b'`): a wall or the white-noise sprite. -/
def objBlockedAt (walls : ℤ × ℤ → Bool) (s : MazeState) (dest : ℤ × ℤ) : Bool :=
  walls dest || decide (dest = s.noisePos)

/-- Modelled from the spec: the pycolab prefab `MazeWalker` motion methods
(`_north`/`_south`/`_west`/`_east`, library code not under `src/`) move the
sprite one cell in the given direction unless the destination holds one of
the sprite's impassable characters, in which case the sprite stays and the
method reports the obstruction (returns non-`None`).  This is the motion of
the moveable object `'e'`; the `Bool` is `true` when the move succeeded. -/
def objMove (walls : ℤ × ℤ → Bool) (s : MazeState) (d : ℤ × ℤ) : MazeState × Bool :=
  let dest := shift s.objPos d
  if objBlockedAt walls s dest then (s, false)
  else ({ s with objPos := dest }, true)

/-- Modelled from the spec: the same `MazeWalker` motion for the player
sprite, whose only impassable character is `'#'` (the walls). -/
def playerMove (walls : ℤ × ℤ → Bool) (s : MazeState) (d : ℤ × ℤ) : MazeState :=
  let dest := shift s.playerPos d
  if walls dest then s else { s with playerPos := dest }

/-- `MoveableObject.update` (deepmind_5room_moveable.py lines 179-223): the
four push branches with their room-exit guards `(3, 9)`, `(4, 8)` and
`(4, 10)`, obstruction handling (`moved is not None`), and the implicit
no-op when no branch fires. -/
def moveableUpdate (walls : ℤ × ℤ → Bool) (s : MazeState) : MazeState :=
  let mr := s.objPos.1
  let mc := s.objPos.2
  let pr := s.playerLastPos.1
  let pc := s.playerLastPos.2
  if mc = pc ∧ mr - pr = -1 ∧ s.playerLastAction = 0 then
    let m := objMove walls s dirNorth
    if m.2 then m.1 else playerMove walls m.1 dirSouth
  else if mc = pc ∧ mr - pr = 1 ∧ s.playerLastAction = 1 then
    if s.objPos = ((3, 9) : ℤ × ℤ) then playerMove walls s dirNorth
    else
      let m := objMove walls s dirSouth
      if m.2 then m.1 else playerMove walls m.1 dirNorth
  else if mc - pc = 1 ∧ mr = pr ∧ s.playerLastAction = 3 then
    if s.objPos = ((4, 8) : ℤ × ℤ) then playerMove walls s dirWest
    else
      let m := objMove walls s dirEast
      if m.2 then m.1 else playerMove walls m.1 dirWest
  else if mc - pc = -1 ∧ mr = pr ∧ s.playerLastAction = 2 then
    if s.objPos = ((4, 10) : ℤ × ℤ) then playerMove walls s dirEast
    else
      let m := objMove walls s dirWest
      if m.2 then m.1 else playerMove walls m.1 dirEast
  else s

/-- `WhiteNoiseObject.update`: teleport to `self._empty_coords[choice]` for a
uniformly drawn `choice`; `_empty_coords = ROOMS[4]`.  The random draw is an
explicit oracle argument, and `MazeWalker._teleport` (library code not under
`src/`) is modelled from the spec as setting the sprite's position. -/
def whiteNoiseUpdate (choice : Fin ROOMS4.length) (s : MazeState) : MazeState :=
  { s with noisePos := ROOMS4.get choice }

/-- Iterated white-noise updates, one per game step, with the oracle's
choice sequence. -/
def whiteNoiseRun (choices : List (Fin ROOMS4.length)) (s : MazeState) : MazeState :=
  choices.foldl (fun st c => whiteNoiseUpdate c st) s

/-! ### The RND curiosity model (rnd.py)

Tensors of shape `(T, B, ...)` are embedded as functions out of
`Fin T × Fin B`; a grayscale image is a function `Pix → ℚ` for an abstract
pixel-index type `Pix`.  The two convolutional networks are external `torch`
modules; they are embedded as abstract functions from their parameter
vectors (indexed by abstract types `TIdx`, `FIdx`) and an input image to the
`512` output features.  `torch.sqrt` / `np.sqrt` is likewise an abstract
function `sqrtQ`.  Randomness (weight initialisation, dropout draws) enters
as explicit arguments. -/

/-- `self.feature_size = 512`. -/
def featureSize : ℕ := 512

/-- `np.mean` of a list of rationals. -/
def listMeanQ (l : List ℚ) : ℚ := l.sum / l.length

/-- `np.var` of a list of rationals. -/
def listVarQ (l : List ℚ) : ℚ :=
  (l.map (fun x => (x - listMeanQ l) ^ 2)).sum / l.length

/-- Modelled from the spec: `RunningMeanStd.update_from_moments` from
`rlpyt/utils/averages.py` is not under `src/`; the spec calls the class "a
running mean/variance update", which is the standard streaming combination
of `(mean, var, count)` with a batch's moments.  Returns the new
`(mean, var, count)`. -/
def rmsUpdateMoments (mean var count batchMean batchVar batchCount : ℚ) :
    ℚ × ℚ × ℚ :=
  let delta := batchMean - mean
  let tot := count + batchCount
  (mean + delta * batchCount / tot,
   (var * count + batchVar * batchCount + delta ^ 2 * count * batchCount / tot) / tot,
   tot)

/-- Modelled from the spec: `RewardForwardFilter.update` from
`rlpyt/utils/averages.py` is not under `src/`; per claim C1's wording it
produces "forward-filtered rewards": a discounted running accumulation of
the per-env reward vectors, reset where an episode ended. -/
def rffUpdate (B : ℕ) (gamma : ℚ) (st : Option (Fin B → ℚ))
    (rews notDone : Fin B → ℚ) : Fin B → ℚ :=
  match st with
  | none => rews
  | some m => fun b => m b * gamma * notDone b + rews b

/-- The filter state threaded through `total_rew_per_env = np.array([...])`:
returns the list of returned accumulations (one per timestep, in order) and
the final filter state. -/
def rffScan (B : ℕ) (gamma : ℚ) :
    Option (Fin B → ℚ) → List ((Fin B → ℚ) × (Fin B → ℚ)) →
      List (Fin B → ℚ) × Option (Fin B → ℚ)
  | st, [] => ([], st)
  | st, p :: rest =>
      let m := rffUpdate B gamma st p.1 p.2
      let r := rffScan B gamma (some m) rest
      (m :: r.1, r.2)

/-- The state held by the `RND` module: hyperparameters, the two networks'
parameter vectors with their `requires_grad` flags, the observation
statistics `obs_rms` (per-pixel mean/variance and a shared count), the
reward statistics `rew_rms`, and the forward-filter state `rew_rff`. -/
structure RNDState (Pix TIdx FIdx : Type) (B : ℕ) where
  predictionBeta : ℚ
  dropProbability : ℚ
  gamma : ℚ
  targetParams : TIdx → ℚ
  targetGrad : TIdx → Bool
  forwardParams : FIdx → ℚ
  forwardGrad : FIdx → Bool
  obsMean : Pix → ℚ
  obsVar : Pix → ℚ
  obsCount : ℚ
  rewMean : ℚ
  rewVar : ℚ
  rewCount : ℚ
  rewems : Option (Fin B → ℚ)

/-- `RND.__init__` with `obs_stats=None`: stores the hyperparameters, takes
the (randomly initialised) weight vectors, leaves `requires_grad` at its
default `True` for the predictor and sets it to `False` for every parameter
of the target model (rnd.py lines 106-107); fresh running statistics and an
empty forward filter. -/
def rndInit (Pix TIdx FIdx : Type) (B : ℕ)
    (predictionBeta dropProbability gamma : ℚ)
    (tp : TIdx → ℚ) (fp : FIdx → ℚ) : RNDState Pix TIdx FIdx B :=
  { predictionBeta := predictionBeta
    dropProbability := dropProbability
    gamma := gamma
    targetParams := tp
    targetGrad := fun _ => false
    forwardParams := fp
    forwardGrad := fun _ => true
    obsMean := fun _ => 0
    obsVar := fun _ => 1
    obsCount := 1 / 10000
    rewMean := 0
    rewVar := 1
    rewCount := 1 / 10000
    rewems := none }

/-- `torch.clamp(·, min=-5, max=5)`. -/
def clampQ (x : ℚ) : ℚ := min 5 (max (-5) x)

/-- The observation normalisation of `RND.forward` (rnd.py lines 142-143):
`(obs - obs_mean) / (sqrt(obs_var) + 1e-10)`, clamped to `[-5, 5]`. -/
def normImage (Pix : Type) (sqrtQ : ℚ → ℚ) (mean var : Pix → ℚ)
    (img : Pix → ℚ) : Pix → ℚ :=
  fun p => clampQ ((img p - mean p) / (sqrtQ (var p) + 1 / 10000000000))

/-- `num_not_done[b] = np.sum(np.abs(done - 1), axis=0)` over the `Fin`
indexing. -/
def numNotDoneF (T B : ℕ) (done : Fin T → Fin B → Bool) (b : Fin B) : ℕ :=
  ∑ t : Fin T, if done t b then 0 else 1

/-- The `valid_obs` batch of `RND.forward`: for every batch column in order,
the first `num_not_done[b]` frame-stack-last observations of that column. -/
def validObsImgs (Pix : Type) (T B S : ℕ)
    (obs : Fin T → Fin B → Fin (S + 1) → Pix → ℚ)
    (done : Fin T → Fin B → Bool) : List (Pix → ℚ) :=
  ((List.finRange B).map (fun b =>
    ((List.finRange T).take (numNotDoneF T B done b)).map
      (fun t => obs t b (Fin.last S)))).flatten

/-- `self.obs_rms.update(valid_obs)`: per-pixel batch moments combined into
the running statistics (`RunningMeanStd.update`, modelled from the spec as
for `rmsUpdateMoments`). -/
def obsRmsUpdate (Pix TIdx FIdx : Type) (B : ℕ) (s : RNDState Pix TIdx FIdx B)
    (imgs : List (Pix → ℚ)) : RNDState Pix TIdx FIdx B :=
  { s with
    obsMean := fun p =>
      (rmsUpdateMoments (s.obsMean p) (s.obsVar p) s.obsCount
        (listMeanQ (imgs.map (fun im => im p)))
        (listVarQ (imgs.map (fun im => im p))) imgs.length).1
    obsVar := fun p =>
      (rmsUpdateMoments (s.obsMean p) (s.obsVar p) s.obsCount
        (listMeanQ (imgs.map (fun im => im p)))
        (listVarQ (imgs.map (fun im => im p))) imgs.length).2.1
    obsCount := s.obsCount + imgs.length }

/-- `RND.forward(obs, done)`: select the last stacked frame, normalise with
the *current* observation statistics, run the target and predictor networks,
and — when `done` is given — update `obs_rms` with the `valid_obs` batch.
Returns `(phi, predicted_phi, new state)`. -/
def rndForward (Pix TIdx FIdx : Type) (T B S : ℕ) (sqrtQ : ℚ → ℚ)
    (targetNet : (TIdx → ℚ) → (Pix → ℚ) → Fin featureSize → ℚ)
    (forwardNet : (FIdx → ℚ) → (Pix → ℚ) → Fin featureSize → ℚ)
    (s : RNDState Pix TIdx FIdx B)
    (obs : Fin T → Fin B → Fin (S + 1) → Pix → ℚ)
    (done : Option (Fin T → Fin B → Bool)) :
    (Fin T → Fin B → Fin featureSize → ℚ) ×
      (Fin T → Fin B → Fin featureSize → ℚ) × RNDState Pix TIdx FIdx B :=
  let norm : Fin T → Fin B → Pix → ℚ := fun t b =>
    normImage Pix sqrtQ s.obsMean s.obsVar (obs t b (Fin.last S))
  let phi := fun t b => targetNet s.targetParams (norm t b)
  let predictedPhi := fun t b => forwardNet s.forwardParams (norm t b)
  let s' :=
    match done with
    | none => s
    | some d => obsRmsUpdate Pix TIdx FIdx B s (validObsImgs Pix T B S obs d)
  (phi, predictedPhi, s')

/-- `RND.compute_bonus(next_observation, done)` (rnd.py lines 174-199):
per-timestep squared feature error divided by `feature_size`, forward filter
scan over the timesteps, `rew_rms.update_from_moments` with the scan's mean,
variance and `np.sum(not_done)`, division by the *updated* standard
deviation, the done mask, and the `prediction_beta` scale. -/
def rndComputeBonus (Pix TIdx FIdx : Type) (T B S : ℕ) (sqrtQ : ℚ → ℚ)
    (targetNet : (TIdx → ℚ) → (Pix → ℚ) → Fin featureSize → ℚ)
    (forwardNet : (FIdx → ℚ) → (Pix → ℚ) → Fin featureSize → ℚ)
    (s : RNDState Pix TIdx FIdx B)
    (obs : Fin T → Fin B → Fin (S + 1) → Pix → ℚ)
    (done : Fin T → Fin B → Bool) :
    (Fin T → Fin B → ℚ) × RNDState Pix TIdx FIdx B :=
  let f := rndForward Pix TIdx FIdx T B S sqrtQ targetNet forwardNet s obs (some done)
  let rewards : Fin T → Fin B → ℚ := fun t b =>
    (∑ k : Fin featureSize, (f.2.1 t b k - f.1 t b k) ^ 2) / featureSize
  let notDoneQ : Fin T → Fin B → ℚ := fun t b => if done t b then 0 else 1
  let scan := rffScan B s.gamma s.rewems
    ((List.finRange T).map (fun t => (rewards t, notDoneQ t)))
  let totalVals : List ℚ := (scan.1.map (fun v => (List.finRange B).map v)).flatten
  let rms := rmsUpdateMoments s.rewMean s.rewVar s.rewCount
    (listMeanQ totalVals) (listVarQ totalVals) (∑ t : Fin T, ∑ b : Fin B, notDoneQ t b)
  (fun t b => s.predictionBeta * (rewards t b / sqrtQ rms.2.1 * notDoneQ t b),
   { f.2.2 with
     rewMean := rms.1
     rewVar := rms.2.1
     rewCount := rms.2.2
     rewems := scan.2 })

/-- `RND.compute_loss(next_observations, valid)` (rnd.py lines 201-212):
forward pass without a statistics update, per-timestep squared feature error
over `feature_size`, the random drop mask `1 - (rand > drop_probability)`,
and the `valid`-masked mean. -/
def rndComputeLoss (Pix TIdx FIdx : Type) (T B S : ℕ) (sqrtQ : ℚ → ℚ)
    (targetNet : (TIdx → ℚ) → (Pix → ℚ) → Fin featureSize → ℚ)
    (forwardNet : (FIdx → ℚ) → (Pix → ℚ) → Fin featureSize → ℚ)
    (s : RNDState Pix TIdx FIdx B)
    (obs : Fin T → Fin B → Fin (S + 1) → Pix → ℚ)
    (valid : Fin T → Fin B → ℚ) (randDraw : Fin T → Fin B → ℚ) :
    ℚ × RNDState Pix TIdx FIdx B :=
  let f := rndForward Pix TIdx FIdx T B S sqrtQ targetNet forwardNet s obs none
  let forwardLoss : Fin T → Fin B → ℚ := fun t b =>
    (∑ k : Fin featureSize, (f.2.1 t b k - f.1 t b k) ^ 2) / featureSize
  let mask : Fin T → Fin B → ℚ := fun t b =>
    (1 - if s.dropProbability < randDraw t b then 1 else 0) * valid t b
  ((∑ t : Fin T, ∑ b : Fin B, forwardLoss t b * mask t b) /
      (∑ t : Fin T, ∑ b : Fin B, mask t b),
   f.2.2)

/-! ### Concrete fixtures used by witnesses and counterexamples. -/

/-- A concrete engine state: frame 5, not over, every sprite at `(9, 9)`. -/
def sampleGame : GameState := { frame := 5, gameOver := false, things := fun _ => (9, 9) }

/-- A concrete observation in which exactly the character `'b'` is visible. -/
def sampleObs : LayerObs := { visible := fun c => decide (c = 'b') }

/-- A concrete observation in which no character is visible. -/
def blankObs : LayerObs := { visible := fun _ => false }

/-- The adapter state right after `__init__`. -/
def envZero : EnvState :=
  { currentGame := none, state := none, lastReward := none, gameOver := false
    visitFreq := fun _ => 0, numObjEps := fun _ => 0, episodes := 0
    heatmap := fun _ => 1 }

/-- The adapter state with a running game. -/
def envActive : EnvState := { envZero with currentGame := some sampleGame }

/-- A concrete configuration: `'mask'` observations, extrinsic reward `0`,
character-based goal `'b'`. -/
def cfgMask : EnvConfig :=
  { maxIterations := 1, defaultReward := 0, extrinsicReward := 0
    rewardSprite := 'P', rewardGoal := RewardGoal.char 'b'
    obsType := ObsType.mask, stateLayerChars := ['b'], objects := ['b']
    logHeatmaps := false }

/-- The same configuration with `'rgb'` observations. -/
def cfgRgb : EnvConfig := { cfgMask with obsType := ObsType.rgb }

/-- A maze state: the player has just pushed the object down at the room-2
exit `(3, 9)`, standing on the object's cell. -/
def sampleMaze : MazeState :=
  { playerPos := (3, 9), playerLastPos := (2, 9), playerLastAction := 1
    objPos := (3, 9), noisePos := (16, 4) }

/-- A wall-free board for witnesses. -/
def noWalls : ℤ × ℤ → Bool := fun _ => false

/-- A trivial network for witnesses. -/
def zeroNet : (Unit → ℚ) → (Unit → ℚ) → Fin featureSize → ℚ := fun _ _ _ => 0

/-- A stand-in square-root oracle for witnesses. -/
def oneSqrt : ℚ → ℚ := fun _ => 1

/-- A freshly constructed RND state over singleton index types. -/
def sampleRND : RNDState Unit Unit Unit 1 :=
  rndInit Unit Unit Unit 1 1 1 (99 / 100) (fun _ => 0) (fun _ => 0)

/-- A constant frame-stacked observation batch with `T = B = 1`. -/
def sampleStackObs : Fin 1 → Fin 1 → Fin (0 + 1) → Unit → ℚ := fun _ _ _ _ => 0

/-- A `done` mask with nothing done. -/
def sampleDone : Fin 1 → Fin 1 → Bool := fun _ _ => false

end CuriosityBaselines

namespace CuriosityBaselines

theorem numNotDone_cons (d : ℤ) (ds : List ℤ) :
    numNotDone (d :: ds) = (d - 1).natAbs + numNotDone ds := by
  simp [numNotDone]

theorem numNotDone_all_ones (ds : List ℤ) (h : ∀ d ∈ ds, d = 1) :
    numNotDone ds = 0 := by
  induction ds with
  | nil => rfl
  | cons d ds ih =>
      have hd : d = 1 := h d (List.mem_cons_self d ds)
      rw [numNotDone_cons, hd]
      simp [ih (fun x hx => h x (List.mem_cons_of_mem d hx))]

theorem notDoneObs_all_ones {α : Type} (os : List α) (ds : List ℤ)
    (h : ∀ d ∈ ds, d = 1) : notDoneObs os ds = [] := by
  unfold notDoneObs
  have hf : (os.zip ds).filter (fun p => p.2 = 0) = [] := by
    rw [List.filter_eq_nil_iff]
    intro p hp
    have h2 := List.of_mem_zip hp
    have : p.2 = 1 := h p.2 h2.2
    simp [this]
  rw [hf]
  rfl

/-- Claim C2 is false on the code: `RND.forward` takes the first
`num_not_done[b]` timesteps of column `b`, not the timesteps whose `done`
flag is false.  With one batch column, observations `[10, 20]` and
`done = [1, 0]` (done at step 0, not done at step 1), the code contributes
`[10]` — the observation of the *done* step — while the set of not-done
observations is `[20]`. -/
theorem rnd_forward_valid_obs_not_done_set_counterexample :
    validObs [[10, 20]] [[1, 0]] = [10] ∧
      notDoneObs [10, 20] [1, 0] = [20] ∧
      ¬ List.Perm (validObsCol [10, 20] [1, 0] : List ℕ) (notDoneObs [10, 20] [1, 0]) := by
  refine ⟨rfl, rfl, ?_⟩
  decide

/-- Claim C2, amended: for every batch column, `RND.forward` contributes the
first `num_not_done` observations of the column, and this slice equals the
observations at not-done timesteps exactly in the case the original claim
went beyond — when, in the column, every not-done step precedes every done
step (the `done` column is sorted). -/
theorem rnd_forward_valid_obs_amended (α : Type) (os : List α) (ds : List ℤ)
    (h01 : ∀ d ∈ ds, d = 0 ∨ d = 1) (hsorted : List.Sorted (· ≤ ·) ds) :
    validObsCol os ds = notDoneObs os ds := by
  induction ds generalizing os with
  | nil =>
      simp [validObsCol, notDoneObs, numNotDone]
  | cons d ds ih =>
      cases os with
      | nil => simp [validObsCol, notDoneObs]
      | cons o os =>
          have hsorted' : List.Sorted (· ≤ ·) ds := hsorted.of_cons
          have h01' : ∀ x ∈ ds, x = 0 ∨ x = 1 :=
            fun x hx => h01 x (List.mem_cons_of_mem d hx)
          rcases h01 d (List.mem_cons_self d ds) with h0 | h1
          · subst h0
            have hstep : validObsCol (o :: os) (0 :: ds) = o :: validObsCol os ds := by
              simp [validObsCol, numNotDone_cons, Nat.add_comm, List.take_succ_cons]
            rw [hstep, ih os h01' hsorted']
            simp [notDoneObs]
          · subst h1
            have hall : ∀ x ∈ ds, x = 1 := by
              intro x hx
              rcases h01' x hx with h | h
              · exfalso
                have := (List.sorted_cons.mp hsorted).1 x hx
                omega
              · exact h
            have hz : numNotDone (1 :: ds) = 0 := by
              rw [numNotDone_cons]
              simp [numNotDone_all_ones ds hall]
            have h2 : notDoneObs (o :: os) (1 :: ds) = notDoneObs os ds := by
              simp [notDoneObs]
            rw [h2, notDoneObs_all_ones os ds hall]
            simp [validObsCol, hz]

/-- Witness for the amended C2 theorem at a concrete column: observations
`[10, 20]` with `done = [0, 1]`. -/
theorem rnd_forward_valid_obs_amended_witness :
    validObsCol [10, 20] [0, 1] = notDoneObs [10, 20] [0, 1] :=
  rnd_forward_valid_obs_amended ℕ [10, 20] [0, 1] (by decide)
    (by decide)

/-- Claim C8: `WhiteNoiseObject.update` teleports `'b'` to
`ROOMS[4][choice]`, so (i) the position after any update is a member of
`ROOMS[4]`, (ii) every member of `ROOMS[4]` is a possible outcome of the
uniform draw, and (iii) after any nonempty sequence of game steps the
white-noise sprite's position lies in `ROOMS[4]`. -/
theorem white_noise_stays_in_room4 (s : MazeState) (choice : Fin ROOMS4.length)
    (choices : List (Fin ROOMS4.length)) :
    (whiteNoiseUpdate choice s).noisePos ∈ ROOMS4 ∧
      (∀ p ∈ ROOMS4, ∃ c : Fin ROOMS4.length, (whiteNoiseUpdate c s).noisePos = p) ∧
      (choices ≠ [] → (whiteNoiseRun choices s).noisePos ∈ ROOMS4) := by
  refine ⟨List.get_mem ROOMS4 choice.1 choice.isLt, ?_, ?_⟩
  · intro p hp
    rcases List.mem_iff_get.mp hp with ⟨i, hi⟩
    exact ⟨i, hi⟩
  · induction choices generalizing s with
    | nil => intro h; exact absurd rfl h
    | cons c cs ih =>
        intro _
        cases cs with
        | nil => exact List.get_mem ROOMS4 c.1 c.isLt
        | cons c2 cs2 => exact ih (whiteNoiseUpdate c s) (by simp)

/-- Witness for C8 at a concrete state and choice sequence. -/
theorem white_noise_stays_in_room4_witness :
    (whiteNoiseRun [⟨0, by decide⟩] sampleMaze).noisePos ∈ ROOMS4 :=
  (white_noise_stays_in_room4 sampleMaze ⟨0, by decide⟩ [⟨0, by decide⟩]).2.2
    (by simp)

/-- Claim C5: a `step` call with no active game returns
`(None, last reward, last game-over flag, {})` and changes nothing but
`self._state`; and whenever a step reports `done`, the resulting state has
`current_game = None`. -/
theorem step_after_episode_end (cfg : EnvConfig) (e : EnvState) (g : GameState)
    (obs : LayerObs) (r : Option ℚ) :
    (e.currentGame = none →
      stepEnv cfg e g obs r =
        ({ e with state := none },
         { state := none, reward := e.lastReward, done := e.gameOver,
           infoEmpty := true }) ∧
      (stepEnv cfg e g obs r).1.visitFreq = e.visitFreq ∧
      (stepEnv cfg e g obs r).1.numObjEps = e.numObjEps ∧
      (stepEnv cfg e g obs r).1.episodes = e.episodes ∧
      (stepEnv cfg e g obs r).1.heatmap = e.heatmap) ∧
    ((stepEnv cfg e g obs r).2.done = true →
      (stepEnv cfg e g obs r).1.currentGame = none) := by
  constructor
  · intro h
    simp [stepEnv, h]
  · intro hdone
    rcases hg : e.currentGame with _ | g0
    · simp [stepEnv, hg]
    · simp only [stepEnv, hg] at hdone ⊢
      rcases hov : (updateForGameStep cfg { e with currentGame := some g } g obs r).gameOver
      · simp [hov] at hdone
      · simp [hov]

/-- Witness for C5: a concrete `step` against an ended episode. -/
theorem step_after_episode_end_witness :
    stepEnv cfgMask envZero sampleGame sampleObs none =
      ({ envZero with state := none },
       { state := none, reward := envZero.lastReward, done := envZero.gameOver,
         infoEmpty := true }) :=
  ((step_after_episode_end cfgMask envZero sampleGame sampleObs none).1 rfl).1

theorem updateGameOver_of_frame (cfg : EnvConfig) (e : EnvState) (g : GameState)
    (obs : LayerObs) (r : Option ℚ) (h : cfg.maxIterations ≤ g.frame) :
    (updateForGameStep cfg e g obs r).gameOver = true := by
  simp [updateForGameStep, h]

/-- Claim C10: `__init__` admits only `max_iterations > 0`, and an update
whose engine frame has reached `max_iterations` reports the game over, so a
`step` with an active game returns `done = True` there. -/
theorem episode_length_bounded (cfg : EnvConfig) (e : EnvState) (g : GameState)
    (obs : LayerObs) (r : Option ℚ) :
    ((initEnv cfg).isSome ↔ 0 < cfg.maxIterations) ∧
      (cfg.maxIterations ≤ g.frame →
        (updateForGameStep cfg e g obs r).gameOver = true) ∧
      (cfg.maxIterations ≤ g.frame → e.currentGame.isSome →
        (stepEnv cfg e g obs r).2.done = true) := by
  refine ⟨?_, ?_, ?_⟩
  · unfold initEnv
    by_cases h : 0 < cfg.maxIterations <;> simp [h]
  · intro h
    exact updateGameOver_of_frame cfg e g obs r h
  · intro h hact
    rcases hg : e.currentGame with _ | g0
    · rw [hg] at hact; simp at hact
    · simp only [stepEnv, hg]
      have hov := updateGameOver_of_frame cfg { e with currentGame := some g } g obs r h
      simp [hov]

/-- Witness for C10: frame 5 with `max_iterations = 1` ends the episode. -/
theorem episode_length_bounded_witness :
    (initEnv cfgMask).isSome ∧
      (stepEnv cfgMask envActive sampleGame sampleObs none).2.done = true :=
  ⟨(episode_length_bounded cfgMask envActive sampleGame sampleObs none).1.mpr
      (by decide),
   (episode_length_bounded cfgMask envActive sampleGame sampleObs none).2.2
      (by decide) (by decide)⟩

/-- Claim C1: at each `(t, b)`, `compute_bonus` returns `0` when done there,
and otherwise `prediction_beta` times the squared difference of predictor
and target features of the normalised observation, summed over the `512`
feature dimensions and divided by `feature_size`, divided by the square root
of the reward variance *after* this call's update of `rew_rms` with the
forward-filtered rewards of the batch. -/
theorem rnd_compute_bonus_formula (Pix TIdx FIdx : Type) (T B S : ℕ)
    (sqrtQ : ℚ → ℚ)
    (targetNet : (TIdx → ℚ) → (Pix → ℚ) → Fin featureSize → ℚ)
    (forwardNet : (FIdx → ℚ) → (Pix → ℚ) → Fin featureSize → ℚ)
    (s : RNDState Pix TIdx FIdx B)
    (obs : Fin T → Fin B → Fin (S + 1) → Pix → ℚ)
    (done : Fin T → Fin B → Bool) (t : Fin T) (b : Fin B) :
    (rndComputeBonus Pix TIdx FIdx T B S sqrtQ targetNet forwardNet s obs done).1 t b =
      if done t b then 0
      else
        s.predictionBeta *
          ((∑ k : Fin featureSize,
              (forwardNet s.forwardParams
                  (normImage Pix sqrtQ s.obsMean s.obsVar (obs t b (Fin.last S))) k -
                targetNet s.targetParams
                  (normImage Pix sqrtQ s.obsMean s.obsVar (obs t b (Fin.last S))) k) ^ 2) /
            (featureSize : ℚ)) /
          sqrtQ ((rndComputeBonus Pix TIdx FIdx T B S sqrtQ targetNet forwardNet
              s obs done).2.rewVar) := by
  by_cases h : done t b
  · simp [rndComputeBonus, rndForward, h]
  · simp only [rndComputeBonus, rndForward, h]
    simp only [Bool.false_eq_true, if_false, mul_one]
    ring

/-- Claim C9: `__init__` clears `requires_grad` on every target parameter;
`forward`, `compute_bonus` and `compute_loss` leave the target parameters
and their flags untouched; and the target features `phi` depend only on the
observation and the observation statistics, so two calls agreeing on those
produce identical target features. -/
theorem rnd_target_model_frozen (Pix TIdx FIdx : Type) (T B S : ℕ)
    (sqrtQ : ℚ → ℚ)
    (targetNet : (TIdx → ℚ) → (Pix → ℚ) → Fin featureSize → ℚ)
    (forwardNet : (FIdx → ℚ) → (Pix → ℚ) → Fin featureSize → ℚ)
    (pb dp gm : ℚ) (tp : TIdx → ℚ) (fp : FIdx → ℚ)
    (s s2 : RNDState Pix TIdx FIdx B)
    (obs : Fin T → Fin B → Fin (S + 1) → Pix → ℚ)
    (od od2 : Option (Fin T → Fin B → Bool))
    (done : Fin T → Fin B → Bool)
    (valid rand : Fin T → Fin B → ℚ) :
    ((rndInit Pix TIdx FIdx B pb dp gm tp fp).targetGrad = fun _ => false) ∧
      ((rndForward Pix TIdx FIdx T B S sqrtQ targetNet forwardNet
          s obs od).2.2.targetParams = s.targetParams ∧
        (rndForward Pix TIdx FIdx T B S sqrtQ targetNet forwardNet
          s obs od).2.2.targetGrad = s.targetGrad) ∧
      ((rndComputeBonus Pix TIdx FIdx T B S sqrtQ targetNet forwardNet
          s obs done).2.targetParams = s.targetParams ∧
        (rndComputeBonus Pix TIdx FIdx T B S sqrtQ targetNet forwardNet
          s obs done).2.targetGrad = s.targetGrad) ∧
      ((rndComputeLoss Pix TIdx FIdx T B S sqrtQ targetNet forwardNet
          s obs valid rand).2.targetParams = s.targetParams ∧
        (rndComputeLoss Pix TIdx FIdx T B S sqrtQ targetNet forwardNet
          s obs valid rand).2.targetGrad = s.targetGrad) ∧
      (s.targetParams = s2.targetParams → s.obsMean = s2.obsMean →
        s.obsVar = s2.obsVar →
        (rndForward Pix TIdx FIdx T B S sqrtQ targetNet forwardNet s obs od).1 =
          (rndForward Pix TIdx FIdx T B S sqrtQ targetNet forwardNet s2 obs od2).1) := by
  refine ⟨rfl, ⟨?_, ?_⟩, ⟨?_, ?_⟩, ⟨?_, ?_⟩, ?_⟩
  · cases od <;> simp [rndForward, obsRmsUpdate]
  · cases od <;> simp [rndForward, obsRmsUpdate]
  · simp [rndComputeBonus, rndForward, obsRmsUpdate]
  · simp [rndComputeBonus, rndForward, obsRmsUpdate]
  · simp [rndComputeLoss, rndForward]
  · simp [rndComputeLoss, rndForward]
  · intro h1 h2 h3
    simp only [rndForward, h1, h2, h3]

theorem layerFold_reward (cfg : EnvConfig) (obs : LayerObs) (chars : List Char)
    (acc : Option ℚ × (Char → ℕ)) :
    (chars.foldl (layerStep cfg obs) acc).1 =
      if ∃ x ∈ chars, x ≠ ' ' ∧ (x ∈ cfg.objects ∧ obs.visible x) ∧ charRewardHit cfg x
      then some cfg.extrinsicReward else acc.1 := by
  induction chars generalizing acc with
  | nil => simp
  | cons c cs ih =>
      rw [List.foldl_cons, ih (layerStep cfg obs acc c)]
      by_cases hex : ∃ x ∈ cs, x ≠ ' ' ∧ (x ∈ cfg.objects ∧ obs.visible x) ∧ charRewardHit cfg x
      · obtain ⟨x, hx, hgx⟩ := hex
        rw [if_pos ⟨x, hx, hgx⟩, if_pos ⟨x, List.mem_cons_of_mem c hx, hgx⟩]
      · rw [if_neg hex]
        by_cases hg : c ≠ ' ' ∧ (c ∈ cfg.objects ∧ obs.visible c) ∧ charRewardHit cfg c
        · rw [if_pos ⟨c, List.mem_cons_self c cs, hg⟩]
          obtain ⟨hsp, hmv, hhit⟩ := hg
          simp [layerStep, hsp, hmv, hhit]
        · have hex2 : ¬ ∃ x ∈ c :: cs,
              x ≠ ' ' ∧ (x ∈ cfg.objects ∧ obs.visible x) ∧ charRewardHit cfg x := by
            rintro ⟨x, hx, hgx⟩
            rcases List.mem_cons.mp hx with rfl | hx2
            · exact hg hgx
            · exact hex ⟨x, hx2, hgx⟩
          rw [if_neg hex2]
          by_cases hsp : c = ' '
          · simp [layerStep, hsp]
          · by_cases hmv : c ∈ cfg.objects ∧ obs.visible c
            · have hnh : ¬ charRewardHit cfg c := fun hh => hg ⟨hsp, hmv, hh⟩
              simp [layerStep, hsp, hmv, hnh]
            · simp [layerStep, hsp, hmv]

theorem layerFold_vf (cfg : EnvConfig) (obs : LayerObs) (chars : List Char)
    (acc : Option ℚ × (Char → ℕ)) (c : Char) :
    (chars.foldl (layerStep cfg obs) acc).2 c =
      acc.2 c + chars.count c *
        (if c ≠ ' ' ∧ c ∈ cfg.objects ∧ obs.visible c then 1 else 0) := by
  induction chars generalizing acc with
  | nil => simp
  | cons x xs ih =>
      rw [List.foldl_cons, ih (layerStep cfg obs acc x)]
      have hstep : (layerStep cfg obs acc x).2 c =
          acc.2 c +
            (if c = x ∧ x ≠ ' ' ∧ x ∈ cfg.objects ∧ obs.visible x then 1 else 0) := by
        by_cases hsp : x = ' '
        · simp [layerStep, hsp]
        · by_cases hmv : x ∈ cfg.objects ∧ obs.visible x
          · by_cases hcx : c = x
            · subst hcx
              simp [layerStep, hsp, hmv]
            · simp [layerStep, hsp, hmv, hcx]
          · simp [layerStep, hsp, hmv]
      rw [hstep]
      by_cases hcx : c = x
      · subst hcx
        rw [List.count_cons_self]
        by_cases hg : c ≠ ' ' ∧ c ∈ cfg.objects ∧ obs.visible c
        · simp only [hg, and_self, if_pos, if_true, true_and]
          simp [hg]
          ring
        · simp [hg]
      · rw [List.count_cons_of_ne hcx]
        simp [hcx]

theorem updateForGameStep_visitFreq (cfg : EnvConfig) (e : EnvState)
    (g : GameState) (obs : LayerObs) (r : Option ℚ) (c : Char)
    (hnd : cfg.stateLayerChars.Nodup) (hmem : c ∈ cfg.stateLayerChars)
    (hobj : c ∈ cfg.objects) (hsp : c ≠ ' ') :
    (updateForGameStep cfg e g obs r).visitFreq c =
      e.visitFreq c + (if obs.visible c then 1 else 0) := by
  simp only [updateForGameStep]
  rw [layerFold_vf]
  rw [List.count_eq_one_of_mem hnd hmem]
  by_cases hv : obs.visible c
  · simp [hv, hobj, hsp]
  · simp [hv]

theorem updateForGameStep_frame (cfg : EnvConfig) (e : EnvState) (g : GameState)
    (obs : LayerObs) (r : Option ℚ) :
    (updateForGameStep cfg e g obs r).numObjEps = e.numObjEps ∧
      (updateForGameStep cfg e g obs r).currentGame = e.currentGame ∧
      (updateForGameStep cfg e g obs r).episodes = e.episodes := by
  exact ⟨rfl, rfl, rfl⟩

theorem updateForGameStep_gameOver (cfg : EnvConfig) (e : EnvState)
    (g : GameState) (obs : LayerObs) (r : Option ℚ) :
    (updateForGameStep cfg e g obs r).gameOver =
      (g.gameOver || decide (cfg.maxIterations ≤ g.frame)) := rfl

theorem stepEnv_active_proj (cfg : EnvConfig) (e : EnvState) (g : GameState)
    (obs : LayerObs) (r : Option ℚ) (g0 : GameState)
    (hg : e.currentGame = some g0) :
    (stepEnv cfg e g obs r).1.visitFreq =
        (updateForGameStep cfg { e with currentGame := some g } g obs r).visitFreq ∧
      (stepEnv cfg e g obs r).1.numObjEps =
        (updateForGameStep cfg { e with currentGame := some g } g obs r).numObjEps ∧
      (stepEnv cfg e g obs r).1.currentGame.isSome =
        !(updateForGameStep cfg { e with currentGame := some g } g obs r).gameOver := by
  simp only [stepEnv, hg]
  by_cases hd : (updateForGameStep cfg { e with currentGame := some g } g obs r).gameOver
  · simp [hd]
  · simp only [hd, Bool.false_eq_true, if_false]
    refine ⟨trivial, trivial, ?_⟩
    have hcg : (updateForGameStep cfg { e with currentGame := some g } g obs r).currentGame =
        some g := rfl
    rw [hcg]
    simp [hd]

theorem metrics_refinement_aux (cfg : EnvConfig) (c : Char)
    (hnd : cfg.stateLayerChars.Nodup) (hmem : c ∈ cfg.stateLayerChars)
    (hobj : c ∈ cfg.objects) (hsp : c ≠ ' ') :
    ∀ (evs : List EnvEvent) (e : EnvState) (m : ClaimMetrics),
      e.visitFreq c = m.episodeVisits c →
      e.numObjEps c = m.visitedEpisodes c →
      e.currentGame.isSome = m.gameActive →
      (runEnv cfg e evs).visitFreq c = (runClaim cfg m evs).episodeVisits c ∧
        (runEnv cfg e evs).numObjEps c = (runClaim cfg m evs).visitedEpisodes c := by
  intro evs
  induction evs with
  | nil =>
      intro e m h1 h2 _
      exact ⟨h1, h2⟩
  | cons ev evs ih =>
      intro e m h1 h2 h3
      cases ev with
      | start g obs r =>
          apply ih
          · show (resetEnv cfg e g obs r).visitFreq c =
              (claimReset obs m).episodeVisits c
            unfold resetEnv
            rw [updateForGameStep_visitFreq cfg _ g obs r c hnd hmem hobj hsp]
            by_cases hv : obs.visible c <;> simp [claimReset, claimUpdate, hv]
          · show (resetEnv cfg e g obs r).numObjEps c =
              (claimReset obs m).visitedEpisodes c
            unfold resetEnv
            rw [(updateForGameStep_frame cfg _ g obs r).1]
            simp only [claimReset, claimUpdate]
            rw [← h1, ← h2]
            by_cases h0 : 0 < e.visitFreq c <;> simp [hobj, h0]
          · show (resetEnv cfg e g obs r).currentGame.isSome =
              (claimReset obs m).gameActive
            unfold resetEnv
            rw [(updateForGameStep_frame cfg _ g obs r).2.1]
            rfl
      | play g obs r =>
          rcases hg : e.currentGame with _ | g0
          · have hact : m.gameActive = false := by rw [← h3, hg]; rfl
            apply ih
            · show (stepEnv cfg e g obs r).1.visitFreq c =
                (claimStep cfg g obs m).episodeVisits c
              simp [stepEnv, hg, claimStep, hact, h1]
            · show (stepEnv cfg e g obs r).1.numObjEps c =
                (claimStep cfg g obs m).visitedEpisodes c
              simp [stepEnv, hg, claimStep, hact, h2]
            · show (stepEnv cfg e g obs r).1.currentGame.isSome =
                (claimStep cfg g obs m).gameActive
              simp [stepEnv, hg, claimStep, hact]
          · have hact : m.gameActive = true := by rw [← h3, hg]; rfl
            obtain ⟨hp1, hp2, hp3⟩ := stepEnv_active_proj cfg e g obs r g0 hg
            apply ih
            · show (stepEnv cfg e g obs r).1.visitFreq c =
                (claimStep cfg g obs m).episodeVisits c
              rw [hp1,
                updateForGameStep_visitFreq cfg _ g obs r c hnd hmem hobj hsp]
              by_cases hv : obs.visible c <;>
                simp [claimStep, claimUpdate, hact, hv, h1]
            · show (stepEnv cfg e g obs r).1.numObjEps c =
                (claimStep cfg g obs m).visitedEpisodes c
              rw [hp2, (updateForGameStep_frame cfg _ g obs r).1]
              simp [claimStep, claimUpdate, hact, h2]
            · show (stepEnv cfg e g obs r).1.currentGame.isSome =
                (claimStep cfg g obs m).gameActive
              rw [hp3, updateForGameStep_gameOver]
              simp [claimStep, hact]

/-- Claim C7: starting from construction, for every object character `c`
(that has a layer and is not the floor), after any sequence of resets and
steps the adapter's `visitation_frequency[c]` equals the count — kept by the
claim's own description — of updates in the current episode in which `c`'s
layer was visible (the count is zeroed at each reset, which then counts its
own initial observation), and `num_obj_eps[c]` equals the number of resets
whose just-ended episode had `visitation_frequency[c] > 0`. -/
theorem visitation_metrics_track_claim (cfg : EnvConfig) (e0 : EnvState)
    (evs : List EnvEvent) (c : Char)
    (hinit : initEnv cfg = some e0)
    (hnd : cfg.stateLayerChars.Nodup) (hmem : c ∈ cfg.stateLayerChars)
    (hobj : c ∈ cfg.objects) (hsp : c ≠ ' ') :
    (runEnv cfg e0 evs).visitFreq c =
        (runClaim cfg
          { episodeVisits := fun _ => 0, visitedEpisodes := fun _ => 0,
            gameActive := false } evs).episodeVisits c ∧
      (runEnv cfg e0 evs).numObjEps c =
        (runClaim cfg
          { episodeVisits := fun _ => 0, visitedEpisodes := fun _ => 0,
            gameActive := false } evs).visitedEpisodes c := by
  have he0 : e0.visitFreq c = 0 ∧ e0.numObjEps c = 0 ∧ e0.currentGame = none := by
    unfold initEnv at hinit
    by_cases h : 0 < cfg.maxIterations
    · rw [if_pos h] at hinit
      cases hinit
      exact ⟨rfl, rfl, rfl⟩
    · rw [if_neg h] at hinit
      exact Option.noConfusion hinit
  exact metrics_refinement_aux cfg c hnd hmem hobj hsp evs e0 _
    he0.1 he0.2.1 (by rw [he0.2.2]; rfl)

/-- Witness for C7 on a concrete two-event trace. -/
theorem visitation_metrics_track_claim_witness :
    (runEnv cfgMask envZero
        [EnvEvent.start sampleGame sampleObs none,
         EnvEvent.play sampleGame blankObs none]).visitFreq 'b' =
      (runClaim cfgMask
        { episodeVisits := fun _ => 0, visitedEpisodes := fun _ => 0,
          gameActive := false }
        [EnvEvent.start sampleGame sampleObs none,
         EnvEvent.play sampleGame blankObs none]).episodeVisits 'b' :=
  (visitation_metrics_track_claim cfgMask envZero
    [EnvEvent.start sampleGame sampleObs none,
     EnvEvent.play sampleGame blankObs none] 'b' rfl (by decide) (by decide)
    (by decide) (by decide)).1

/-- Claim C4, amended: the reward reported by a game step is the game's
reward with `default_reward` substituted for `None`, except that (coord
case) a positive `extrinsic_reward` is reported when the specified sprite
sits at the goal coordinate, and (char case) `extrinsic_reward` is reported
when the goal character is visible in the cropped observation — where for
`'mask'` observations this happens for *any* `extrinsic_reward`, while for
`'rgb'` observations it additionally requires `extrinsic_reward > 0`; the
two observation types are *not* uniform. -/
theorem update_reward_amended (cfg : EnvConfig) (e : EnvState) (g : GameState)
    (obs : LayerObs) (r : Option ℚ) :
    (∀ p : ℤ × ℤ, cfg.rewardGoal = RewardGoal.coord p →
      (updateForGameStep cfg e g obs r).lastReward =
        some (if 0 < cfg.extrinsicReward ∧ p = g.things cfg.rewardSprite
              then cfg.extrinsicReward else r.getD cfg.defaultReward)) ∧
    (∀ gc : Char, cfg.rewardGoal = RewardGoal.char gc →
      (updateForGameStep cfg e g obs r).lastReward =
        some (if gc ∈ cfg.stateLayerChars ∧ gc ≠ ' ' ∧ gc ∈ cfg.objects ∧
                 obs.visible gc ∧
                 (cfg.obsType = ObsType.mask ∨ 0 < cfg.extrinsicReward)
              then cfg.extrinsicReward else r.getD cfg.defaultReward)) := by
  constructor
  · intro p hp
    have hnex : ¬ ∃ x ∈ cfg.stateLayerChars,
        x ≠ ' ' ∧ (x ∈ cfg.objects ∧ obs.visible x) ∧ charRewardHit cfg x := by
      rintro ⟨x, _, _, _, hhit⟩
      unfold charRewardHit at hhit
      rcases hob : cfg.obsType with _ | _ <;> rw [hob] at hhit <;>
        first
          | (rw [hp] at hhit; exact RewardGoal.noConfusion hhit)
          | (rw [hp] at hhit; exact RewardGoal.noConfusion hhit.2)
    simp only [updateForGameStep]
    rw [layerFold_reward, if_neg hnex]
    by_cases hc : 0 < cfg.extrinsicReward ∧ p = g.things cfg.rewardSprite
    · have : cfg.rewardGoal = RewardGoal.coord (g.things cfg.rewardSprite) := by
        rw [hp, hc.2]
      rw [if_pos ⟨hc.1, this⟩, if_pos hc]
      rfl
    · have hc2 : ¬ (0 < cfg.extrinsicReward ∧
          cfg.rewardGoal = RewardGoal.coord (g.things cfg.rewardSprite)) := by
        rintro ⟨h1, h2⟩
        rw [hp] at h2
        exact hc ⟨h1, RewardGoal.coord.inj h2⟩
      rw [if_neg hc2, if_neg hc]
  · intro gc hgc
    have hcoord : ¬ (0 < cfg.extrinsicReward ∧
        cfg.rewardGoal = RewardGoal.coord (g.things cfg.rewardSprite)) := by
      rintro ⟨-, h2⟩
      rw [hgc] at h2
      exact RewardGoal.noConfusion h2
    simp only [updateForGameStep]
    rw [layerFold_reward, if_neg hcoord]
    by_cases hcond : gc ∈ cfg.stateLayerChars ∧ gc ≠ ' ' ∧ gc ∈ cfg.objects ∧
        obs.visible gc ∧ (cfg.obsType = ObsType.mask ∨ 0 < cfg.extrinsicReward)
    · obtain ⟨h1, h2, h3, h4, h5⟩ := hcond
      have hhit : charRewardHit cfg gc := by
        unfold charRewardHit
        rcases hob : cfg.obsType with _ | _
        · rw [hgc]
        · refine ⟨?_, by rw [hgc]⟩
          rcases h5 with h5 | h5
          · rw [hob] at h5; exact ObsType.noConfusion h5
          · exact h5
      rw [if_pos ⟨gc, h1, h2, ⟨h3, h4⟩, hhit⟩,
        if_pos ⟨h1, h2, h3, h4, h5⟩]
      rfl
    · have hnex : ¬ ∃ x ∈ cfg.stateLayerChars,
          x ≠ ' ' ∧ (x ∈ cfg.objects ∧ obs.visible x) ∧ charRewardHit cfg x := by
        rintro ⟨x, hx, hxsp, ⟨hxo, hxv⟩, hhit⟩
        unfold charRewardHit at hhit
        rcases hob : cfg.obsType with _ | _ <;> rw [hob] at hhit
        · rw [hgc] at hhit
          have hxgc : gc = x := RewardGoal.char.inj hhit
          exact hcond ⟨hxgc ▸ hx, hxgc ▸ hxsp, hxgc ▸ hxo, hxgc ▸ hxv,
            Or.inl hob⟩
        · rw [hgc] at hhit
          have hxgc : gc = x := RewardGoal.char.inj hhit.2
          exact hcond ⟨hxgc ▸ hx, hxgc ▸ hxsp, hxgc ▸ hxo, hxgc ▸ hxv,
            Or.inr hhit.1⟩
      rw [if_neg hnex, if_neg hcond]

/-- Witness for the amended C4 theorem: the `'mask'` configuration with
extrinsic reward `0`, visible goal character `'b'` and game reward `5`
reports the extrinsic reward. -/
theorem update_reward_amended_witness :
    (updateForGameStep cfgMask envZero sampleGame sampleObs (some 5)).lastReward =
      some (if 'b' ∈ cfgMask.stateLayerChars ∧ 'b' ≠ ' ' ∧ 'b' ∈ cfgMask.objects ∧
               sampleObs.visible 'b' ∧
               (cfgMask.obsType = ObsType.mask ∨ 0 < cfgMask.extrinsicReward)
            then cfgMask.extrinsicReward
            else (some (5 : ℚ)).getD cfgMask.defaultReward) :=
  (update_reward_amended cfgMask envZero sampleGame sampleObs (some 5)).2 'b' rfl

/-- Claim C4's uniformity clause is false: with a character-based goal
`'b'` that is visible, `extrinsic_reward = 0` and game reward `5`, the
`'rgb'` branch keeps the game reward `5` (its guard requires
`extrinsic_reward > 0`) while the `'mask'` branch reports the extrinsic
reward `0` (its guard has no positivity test). -/
theorem update_reward_uniformity_counterexample :
    (updateForGameStep cfgRgb envZero sampleGame sampleObs (some 5)).lastReward =
        some 5 ∧
      (updateForGameStep cfgMask envZero sampleGame sampleObs (some 5)).lastReward =
        some 0 ∧
      cfgRgb.extrinsicReward = 0 ∧ sampleObs.visible 'b' = true ∧ (5 : ℚ) ≠ 0 := by
  refine ⟨?_, ?_, rfl, rfl, by norm_num⟩ <;> rfl

theorem paintFold_covered (colors : Char → Color) (layers : Char → ℤ × ℤ → Bool)
    (perturb : ℤ × ℤ → ℤ) (ks : List Char) (acc : PaintAcc) (pos : ℤ × ℤ)
    (h : acc.covered pos = true) :
    (ks.foldl (paintStep colors layers perturb) acc).board pos = acc.board pos ∧
      (ks.foldl (paintStep colors layers perturb) acc).covered pos = true := by
  induction ks generalizing acc with
  | nil => exact ⟨rfl, h⟩
  | cons k ks ih =>
      have hstep : (paintStep colors layers perturb acc k).covered pos = true := by
        simp [paintStep, h]
      have hb : (paintStep colors layers perturb acc k).board pos = acc.board pos := by
        simp [paintStep, h]
      obtain ⟨h1, h2⟩ := ih (paintStep colors layers perturb acc k) hstep
      exact ⟨by rw [List.foldl_cons, h1, hb], by rw [List.foldl_cons, h2]⟩

theorem paintFold_board (colors : Char → Color) (layers : Char → ℤ × ℤ → Bool)
    (perturb : ℤ × ℤ → ℤ) (ks : List Char) (acc : PaintAcc) (pos : ℤ × ℤ)
    (h : acc.covered pos = false) :
    (ks.foldl (paintStep colors layers perturb) acc).board pos =
      (match ks.find? (fun k => layers k pos) with
        | some k => addPert (colors k) (if k = '@' then perturb pos else 0)
        | none =>
          match ks.getLast? with
          | some k => addPert ((0, 0, 0) : Color) (if k = '@' then perturb pos else 0)
          | none => acc.board pos) := by
  induction ks generalizing acc with
  | nil => rfl
  | cons k ks ih =>
      by_cases hk : layers k pos
      · have hacc : (paintStep colors layers perturb acc k).covered pos = true := by
          simp [paintStep, h, hk]
        have hb : (paintStep colors layers perturb acc k).board pos =
            addPert (colors k) (if k = '@' then perturb pos else 0) := by
          simp [paintStep, h, hk]
        rw [List.foldl_cons,
          (paintFold_covered colors layers perturb ks _ pos hacc).1, hb]
        simp [List.find?_cons, hk]
      · have hacc : (paintStep colors layers perturb acc k).covered pos = false := by
          simp [paintStep, h, hk]
        have hb : (paintStep colors layers perturb acc k).board pos =
            addPert ((0, 0, 0) : Color) (if k = '@' then perturb pos else 0) := by
          simp [paintStep, h, hk]
        rw [List.foldl_cons, ih _ hacc, hb]
        cases hf : ks.find? (fun k => layers k pos) with
        | some k2 => simp [List.find?_cons, hk, hf]
        | none =>
            cases ks with
            | nil => simp [List.find?_cons, hk]
            | cons a l =>
                simp only [List.find?_cons, hk, hf, List.getLast?_cons_cons]
                cases hl : (a :: l).getLast? with
                | some k3 => simp [List.find?_cons, hk, hf, hl]
                | none => exact absurd (List.getLast?_eq_none_iff.mp hl) (by simp)

/-- Claim C6, amended: each cell covered by some layer gets the configured
color of the *first* layer in the render order whose mask covers it (with
the random perturbation added when that layer is `'@'`), and later layers
never overwrite it; a cell covered by no layer is black `(0, 0, 0)` *unless*
the final entry of the render order is the `'@'` layer, in which case such a
cell carries only that layer's perturbation. -/
theorem paint_board_first_cover (renderOrder : List Char) (colors : Char → Color)
    (layers : Char → ℤ × ℤ → Bool) (perturb : ℤ × ℤ → ℤ) (pos : ℤ × ℤ) :
    paintBoard renderOrder colors layers perturb pos =
      (match renderOrder.find? (fun k => layers k pos) with
        | some k => addPert (colors k) (if k = '@' then perturb pos else 0)
        | none => uncoveredValue renderOrder perturb pos) := by
  have h := paintFold_board colors layers perturb renderOrder
    { board := fun _ => ((0, 0, 0) : Color), covered := fun _ => false } pos rfl
  unfold paintBoard
  rw [h]
  cases renderOrder.find? (fun k => layers k pos) with
  | some k => rfl
  | none =>
      unfold uncoveredValue
      cases renderOrder.getLast? with
      | none => rfl
      | some k => simp [addPert]

/-- Claim C6's unconditional clause "a cell covered by no layer is black
`(0, 0, 0)`" is false: when the render order ends with the `'@'` layer, every
cell covered by no layer receives the `'@'` perturbation.  Concretely, with
render order `['@']`, a mask covering nothing, and perturbation `7` (a legal
draw from `[-15, 15)`), the painted cell is `(7, 7, 7)`, not black. -/
theorem paint_board_black_counterexample :
    paintBoard ['@'] (fun _ => ((90, 90, 90) : Color)) (fun _ _ => false)
        (fun _ => 7) (0, 0) = ((7, 7, 7) : Color) ∧
      ((7, 7, 7) : Color) ≠ ((0, 0, 0) : Color) := by
  refine ⟨rfl, ?_⟩
  intro h
  exact absurd (congrArg Prod.fst h) (by decide)

theorem playerMove_objPos (walls : ℤ × ℤ → Bool) (s : MazeState) (d : ℤ × ℤ) :
    (playerMove walls s d).objPos = s.objPos := by
  simp only [playerMove]
  by_cases h : walls (shift s.playerPos d) <;> simp [h]

theorem playerMove_pushback (walls : ℤ × ℤ → Bool) (s : MazeState) (d : ℤ × ℤ)
    (hdest : shift s.playerPos d = s.playerLastPos)
    (hw : walls s.playerLastPos = false) :
    (playerMove walls s d).playerPos = s.playerLastPos := by
  simp only [playerMove, hdest, hw]
  simp

theorem objMove_free (walls : ℤ × ℤ → Bool) (s : MazeState) (d : ℤ × ℤ)
    (hb : objBlockedAt walls s (shift s.objPos d) = false) :
    objMove walls s d = ({ s with objPos := shift s.objPos d }, true) := by
  simp only [objMove, hb]
  simp

theorem objMove_blocked (walls : ℤ × ℤ → Bool) (s : MazeState) (d : ℤ × ℤ)
    (hb : objBlockedAt walls s (shift s.objPos d) = true) :
    objMove walls s d = (s, false) := by
  simp only [objMove, hb]
  simp

/-- Claim C3: `MoveableObject.update` moves the object one cell in direction
`d` exactly when the player's stored `last_position` is the cell adjacent to
the object on the side opposite `d` and the stored `last_action` is the move
in direction `d` and the destination is not obstructed; when the move is
obstructed the player is pushed back one cell opposite `d` (onto its
previous cell when it stood on the object and that cell is free); and at the
room-2 exits — `(3, 9)` for a downward push, `(4, 8)` rightward, `(4, 10)`
leftward — the object stays in place and the player is pushed back, so the
object never leaves room 2 through those exits.  When no push condition
holds the state is unchanged. -/
theorem moveable_object_push (walls : ℤ × ℤ → Bool) (s : MazeState) :
    ((s.objPos.2 = s.playerLastPos.2 ∧ s.objPos.1 - s.playerLastPos.1 = -1 ∧
        s.playerLastAction = 0) →
      (objBlockedAt walls s (shift s.objPos dirNorth) = false →
        moveableUpdate walls s = { s with objPos := shift s.objPos dirNorth }) ∧
      (objBlockedAt walls s (shift s.objPos dirNorth) = true →
        (moveableUpdate walls s).objPos = s.objPos ∧
        moveableUpdate walls s = playerMove walls s dirSouth ∧
        (s.playerPos = s.objPos → walls s.playerLastPos = false →
          (moveableUpdate walls s).playerPos = s.playerLastPos))) ∧
    ((s.objPos.2 = s.playerLastPos.2 ∧ s.objPos.1 - s.playerLastPos.1 = 1 ∧
        s.playerLastAction = 1) →
      (s.objPos = ((3, 9) : ℤ × ℤ) →
        (moveableUpdate walls s).objPos = s.objPos ∧
        moveableUpdate walls s = playerMove walls s dirNorth ∧
        (s.playerPos = s.objPos → walls s.playerLastPos = false →
          (moveableUpdate walls s).playerPos = s.playerLastPos)) ∧
      (s.objPos ≠ ((3, 9) : ℤ × ℤ) →
        (objBlockedAt walls s (shift s.objPos dirSouth) = false →
          moveableUpdate walls s = { s with objPos := shift s.objPos dirSouth }) ∧
        (objBlockedAt walls s (shift s.objPos dirSouth) = true →
          (moveableUpdate walls s).objPos = s.objPos ∧
          moveableUpdate walls s = playerMove walls s dirNorth ∧
          (s.playerPos = s.objPos → walls s.playerLastPos = false →
            (moveableUpdate walls s).playerPos = s.playerLastPos)))) ∧
    ((s.objPos.2 - s.playerLastPos.2 = 1 ∧ s.objPos.1 = s.playerLastPos.1 ∧
        s.playerLastAction = 3) →
      (s.objPos = ((4, 8) : ℤ × ℤ) →
        (moveableUpdate walls s).objPos = s.objPos ∧
        moveableUpdate walls s = playerMove walls s dirWest ∧
        (s.playerPos = s.objPos → walls s.playerLastPos = false →
          (moveableUpdate walls s).playerPos = s.playerLastPos)) ∧
      (s.objPos ≠ ((4, 8) : ℤ × ℤ) →
        (objBlockedAt walls s (shift s.objPos dirEast) = false →
          moveableUpdate walls s = { s with objPos := shift s.objPos dirEast }) ∧
        (objBlockedAt walls s (shift s.objPos dirEast) = true →
          (moveableUpdate walls s).objPos = s.objPos ∧
          moveableUpdate walls s = playerMove walls s dirWest ∧
          (s.playerPos = s.objPos → walls s.playerLastPos = false →
            (moveableUpdate walls s).playerPos = s.playerLastPos)))) ∧
    ((s.objPos.2 - s.playerLastPos.2 = -1 ∧ s.objPos.1 = s.playerLastPos.1 ∧
        s.playerLastAction = 2) →
      (s.objPos = ((4, 10) : ℤ × ℤ) →
        (moveableUpdate walls s).objPos = s.objPos ∧
        moveableUpdate walls s = playerMove walls s dirEast ∧
        (s.playerPos = s.objPos → walls s.playerLastPos = false →
          (moveableUpdate walls s).playerPos = s.playerLastPos)) ∧
      (s.objPos ≠ ((4, 10) : ℤ × ℤ) →
        (objBlockedAt walls s (shift s.objPos dirWest) = false →
          moveableUpdate walls s = { s with objPos := shift s.objPos dirWest }) ∧
        (objBlockedAt walls s (shift s.objPos dirWest) = true →
          (moveableUpdate walls s).objPos = s.objPos ∧
          moveableUpdate walls s = playerMove walls s dirEast ∧
          (s.playerPos = s.objPos → walls s.playerLastPos = false →
            (moveableUpdate walls s).playerPos = s.playerLastPos)))) ∧
    (¬ (s.objPos.2 = s.playerLastPos.2 ∧ s.objPos.1 - s.playerLastPos.1 = -1 ∧
        s.playerLastAction = 0) →
      ¬ (s.objPos.2 = s.playerLastPos.2 ∧ s.objPos.1 - s.playerLastPos.1 = 1 ∧
        s.playerLastAction = 1) →
      ¬ (s.objPos.2 - s.playerLastPos.2 = 1 ∧ s.objPos.1 = s.playerLastPos.1 ∧
        s.playerLastAction = 3) →
      ¬ (s.objPos.2 - s.playerLastPos.2 = -1 ∧ s.objPos.1 = s.playerLastPos.1 ∧
        s.playerLastAction = 2) →
      moveableUpdate walls s = s) := by
  refine ⟨?_, ?_, ?_, ?_, ?_⟩
  · intro h
    constructor
    · intro hb
      simp only [moveableUpdate]
      rw [if_pos h, objMove_free walls s dirNorth hb]
      rfl
    · intro hb
      simp only [moveableUpdate]
      rw [if_pos h, objMove_blocked walls s dirNorth hb]
      refine ⟨playerMove_objPos walls s dirSouth, rfl, ?_⟩
      intro hpp hw
      apply playerMove_pushback walls s dirSouth _ hw
      rw [hpp]
      simp only [shift, dirSouth]
      have h1 : s.objPos.1 + 1 = s.playerLastPos.1 := by omega
      have h2 : s.objPos.2 + 0 = s.playerLastPos.2 := by omega
      rw [h1, h2]
  · intro h
    have hn0 : ¬ (s.objPos.2 = s.playerLastPos.2 ∧
        s.objPos.1 - s.playerLastPos.1 = -1 ∧ s.playerLastAction = 0) := by
      rintro ⟨-, -, ha⟩
      rw [h.2.2] at ha
      exact absurd ha (by decide)
    constructor
    · intro hexit
      simp only [moveableUpdate]
      rw [if_neg hn0, if_pos h, if_pos hexit]
      refine ⟨playerMove_objPos walls s dirNorth, rfl, ?_⟩
      intro hpp hw
      apply playerMove_pushback walls s dirNorth _ hw
      rw [hpp]
      simp only [shift, dirNorth]
      have h1 : s.objPos.1 + -1 = s.playerLastPos.1 := by omega
      have h2 : s.objPos.2 + 0 = s.playerLastPos.2 := by omega
      rw [h1, h2]
    · intro hexit
      constructor
      · intro hb
        simp only [moveableUpdate]
        rw [if_neg hn0, if_pos h, if_neg hexit, objMove_free walls s dirSouth hb]
        rfl
      · intro hb
        simp only [moveableUpdate]
        rw [if_neg hn0, if_pos h, if_neg hexit, objMove_blocked walls s dirSouth hb]
        refine ⟨playerMove_objPos walls s dirNorth, rfl, ?_⟩
        intro hpp hw
        apply playerMove_pushback walls s dirNorth _ hw
        rw [hpp]
        simp only [shift, dirNorth]
        have h1 : s.objPos.1 + -1 = s.playerLastPos.1 := by omega
        have h2 : s.objPos.2 + 0 = s.playerLastPos.2 := by omega
        rw [h1, h2]
  · intro h
    have hn0 : ¬ (s.objPos.2 = s.playerLastPos.2 ∧
        s.objPos.1 - s.playerLastPos.1 = -1 ∧ s.playerLastAction = 0) := by
      rintro ⟨-, -, ha⟩
      rw [h.2.2] at ha
      exact absurd ha (by decide)
    have hn1 : ¬ (s.objPos.2 = s.playerLastPos.2 ∧
        s.objPos.1 - s.playerLastPos.1 = 1 ∧ s.playerLastAction = 1) := by
      rintro ⟨-, -, ha⟩
      rw [h.2.2] at ha
      exact absurd ha (by decide)
    constructor
    · intro hexit
      simp only [moveableUpdate]
      rw [if_neg hn0, if_neg hn1, if_pos h, if_pos hexit]
      refine ⟨playerMove_objPos walls s dirWest, rfl, ?_⟩
      intro hpp hw
      apply playerMove_pushback walls s dirWest _ hw
      rw [hpp]
      simp only [shift, dirWest]
      have h1 : s.objPos.1 + 0 = s.playerLastPos.1 := by omega
      have h2 : s.objPos.2 + -1 = s.playerLastPos.2 := by omega
      rw [h1, h2]
    · intro hexit
      constructor
      · intro hb
        simp only [moveableUpdate]
        rw [if_neg hn0, if_neg hn1, if_pos h, if_neg hexit,
          objMove_free walls s dirEast hb]
        rfl
      · intro hb
        simp only [moveableUpdate]
        rw [if_neg hn0, if_neg hn1, if_pos h, if_neg hexit,
          objMove_blocked walls s dirEast hb]
        refine ⟨playerMove_objPos walls s dirWest, rfl, ?_⟩
        intro hpp hw
        apply playerMove_pushback walls s dirWest _ hw
        rw [hpp]
        simp only [shift, dirWest]
        have h1 : s.objPos.1 + 0 = s.playerLastPos.1 := by omega
        have h2 : s.objPos.2 + -1 = s.playerLastPos.2 := by omega
        rw [h1, h2]
  · intro h
    have hn0 : ¬ (s.objPos.2 = s.playerLastPos.2 ∧
        s.objPos.1 - s.playerLastPos.1 = -1 ∧ s.playerLastAction = 0) := by
      rintro ⟨-, -, ha⟩
      rw [h.2.2] at ha
      exact absurd ha (by decide)
    have hn1 : ¬ (s.objPos.2 = s.playerLastPos.2 ∧
        s.objPos.1 - s.playerLastPos.1 = 1 ∧ s.playerLastAction = 1) := by
      rintro ⟨-, -, ha⟩
      rw [h.2.2] at ha
      exact absurd ha (by decide)
    have hn2 : ¬ (s.objPos.2 - s.playerLastPos.2 = 1 ∧
        s.objPos.1 = s.playerLastPos.1 ∧ s.playerLastAction = 3) := by
      rintro ⟨-, -, ha⟩
      rw [h.2.2] at ha
      exact absurd ha (by decide)
    constructor
    · intro hexit
      simp only [moveableUpdate]
      rw [if_neg hn0, if_neg hn1, if_neg hn2, if_pos h, if_pos hexit]
      refine ⟨playerMove_objPos walls s dirEast, rfl, ?_⟩
      intro hpp hw
      apply playerMove_pushback walls s dirEast _ hw
      rw [hpp]
      simp only [shift, dirEast]
      have h1 : s.objPos.1 + 0 = s.playerLastPos.1 := by omega
      have h2 : s.objPos.2 + 1 = s.playerLastPos.2 := by omega
      rw [h1, h2]
    · intro hexit
      constructor
      · intro hb
        simp only [moveableUpdate]
        rw [if_neg hn0, if_neg hn1, if_neg hn2, if_pos h, if_neg hexit,
          objMove_free walls s dirWest hb]
        rfl
      · intro hb
        simp only [moveableUpdate]
        rw [if_neg hn0, if_neg hn1, if_neg hn2, if_pos h, if_neg hexit,
          objMove_blocked walls s dirWest hb]
        refine ⟨playerMove_objPos walls s dirEast, rfl, ?_⟩
        intro hpp hw
        apply playerMove_pushback walls s dirEast _ hw
        rw [hpp]
        simp only [shift, dirEast]
        have h1 : s.objPos.1 + 0 = s.playerLastPos.1 := by omega
        have h2 : s.objPos.2 + 1 = s.playerLastPos.2 := by omega
        rw [h1, h2]
  · intro hn0 hn1 hn2 hn3
    simp only [moveableUpdate]
    rw [if_neg hn0, if_neg hn1, if_neg hn2, if_neg hn3]

/-- Witness for C3: with no walls, pushing the object down at the room exit
`(3, 9)` leaves the object in place and moves the player back up to
`(2, 9)`; and a downward push elsewhere moves the object. -/
theorem moveable_object_push_witness :
    (moveableUpdate noWalls sampleMaze).objPos = sampleMaze.objPos ∧
      (moveableUpdate noWalls sampleMaze).playerPos = sampleMaze.playerLastPos := by
  have h := ((moveable_object_push noWalls sampleMaze).2.1
    ⟨rfl, by decide, rfl⟩).1 rfl
  exact ⟨h.1, h.2.2 rfl rfl⟩

/-- Witness for C9 at a concrete model and observation batch. -/
theorem rnd_target_model_frozen_witness :
    ((rndInit Unit Unit Unit 1 1 1 (99 / 100) (fun _ => 0)
        (fun _ => 0)).targetGrad = fun _ => false) ∧
      (rndForward Unit Unit Unit 1 1 0 oneSqrt zeroNet zeroNet sampleRND
          sampleStackObs (some sampleDone)).1 =
        (rndForward Unit Unit Unit 1 1 0 oneSqrt zeroNet zeroNet sampleRND
          sampleStackObs none).1 := by
  have h := rnd_target_model_frozen Unit Unit Unit 1 1 0 oneSqrt zeroNet zeroNet
    1 1 (99 / 100) (fun _ => 0) (fun _ => 0) sampleRND sampleRND sampleStackObs
    (some sampleDone) none sampleDone (fun _ _ => 1) (fun _ _ => 0)
  exact ⟨h.1, h.2.2.2.2 rfl rfl rfl⟩

end CuriosityBaselines
